import Mathlib

/-!
Shallow embedding of the youtube-shorts-maker repository
(`src/app.py`, `src/utils.py`, `src/youtube_uploader.py`, `src/config.py`)
and proofs about its documented behaviour.

Conventions of the embedding:
* Python dicts (JSON objects, form data, multipart files) are association
  lists with first-match lookup.
* The local filesystem is an association list from path to file content.
* External effects (HTTP download, the ffmpeg transcoder, the chunked
  YouTube transfer) are oracles: functions supplied as parameters that
  return either a result or an exception message, mirroring the Python
  call sites.
* A Python exception is an `Except`-style error carrying `str(e)`;
  `ValueError` is distinguished from other exceptions because the
  orchestrator catches it specially.
-/

namespace ShortsMaker

/-! ## Upload state machine (`src/youtube_uploader.py`) -/

/-- One result of calling `insert_request.next_chunk()` inside the upload
loop: it either raises an exception, reports progress (`response is None`),
or returns a terminal response object (a JSON dict, here an association
list of string fields). -/
inductive ChunkOutcome where
  | exn (msg : String)
  | progress
  | done (resp : List (String × String))
deriving DecidableEq, Repr

/-- Lookup of a field in a JSON-dict response, first match wins. -/
def respLookup (resp : List (String × String)) (k : String) : Option String :=
  (resp.find? (fun e => e.1 == k)).map (fun e => e.2)

/-- Outcome of the `while response is None` loop of
`upload_video_to_youtube` (lines 94-108). -/
inductive LoopResult where
  | terminal (resp : List (String × String))
  | retriesExceeded (msg : String)
  | starved
deriving DecidableEq, Repr

/-- The retry loop of `upload_video_to_youtube`: `response = None; retry = 0;
while response is None: try next_chunk except: retry += 1; if retry > 3:
raise Exception(f"Upload failed after 3 retries: {str(error)}")`.

The loop is driven by the finite trace `chunks` of successive
`next_chunk()` outcomes; `starved` marks a trace that ends before the loop
reaches a terminal state (the real loop would simply call `next_chunk()`
again).  The second component counts how many `next_chunk()` calls were
made. -/
def next_chunk_loop : List ChunkOutcome → Nat → LoopResult × Nat
  | [], _ => (LoopResult.starved, 0)
  | ChunkOutcome.done resp :: _, _ => (LoopResult.terminal resp, 1)
  | ChunkOutcome.progress :: rest, retry =>
      let r := next_chunk_loop rest retry
      (r.1, r.2 + 1)
  | ChunkOutcome.exn m :: rest, retry =>
      if retry + 1 > 3 then
        (LoopResult.retriesExceeded ("Upload failed after 3 retries: " ++ m), 1)
      else
        let r := next_chunk_loop rest (retry + 1)
        (r.1, r.2 + 1)

/-- The `snippet` part of the upload metadata body (lines 64-69). -/
structure Snippet where
  title : String
  description : String
  tags : List String
  categoryId : String
deriving DecidableEq, Repr

/-- The `status` part of the upload metadata body (lines 70-73). -/
structure UploadStatus where
  privacyStatus : String
  selfDeclaredMadeForKids : Bool
deriving DecidableEq, Repr

/-- The metadata `body` dict of `upload_video_to_youtube` (lines 62-74). -/
structure VideoBody where
  snippet : Snippet
  status : UploadStatus
deriving DecidableEq, Repr

/-- Builds the metadata body exactly as lines 62-74 do; note Python's
`tags if tags else []`, under which both `None` and the empty list give
`[]`. -/
def build_upload_body (title description : String) (tags : Option (List String))
    (privacy_status : String) : VideoBody :=
  { snippet :=
      { title := title
        description := description
        tags := match tags with
          | none => []
          | some ts => if ts.isEmpty then [] else ts
        categoryId := "22"
      }
    status :=
      { privacyStatus := privacy_status
        selfDeclaredMadeForKids := false } }

/-- Default value of the `privacy_status` parameter of
`upload_video_to_youtube` (line 51). -/
def uploadDefaultPrivacy : String := "public"

/-- Result of running `upload_video_to_youtube`: the returned value or the
final exception message, the metadata body that was built (if the run got
that far), and how many `next_chunk()` calls were made. -/
structure UploadRun where
  result : Except String String
  body : Option VideoBody
  chunkCalls : Nat
deriving Repr

/-- Shallow embedding of `upload_video_to_youtube` (lines 51-120).
`fsExists` models `os.path.exists`; `auth` models the outcome of
`get_youtube_service()` (its wrapped failure message on error); `chunks`
is the trace of `next_chunk()` outcomes.  Every internal `raise` is
re-wrapped by the outer handler into
`"Failed to upload video to YouTube: " ++ str(e)` (lines 118-120). -/
def upload_video_to_youtube (fsExists : String → Bool) (auth : Except String Unit)
    (chunks : List ChunkOutcome) (video_path title description : String)
    (tags : Option (List String)) (privacy_status : String) : UploadRun :=
  if fsExists video_path = false then
    { result := Except.error
        ("Failed to upload video to YouTube: Video file not found: " ++ video_path)
      body := none, chunkCalls := 0 }
  else
    match auth with
    | Except.error m =>
        { result := Except.error
            ("Failed to upload video to YouTube: Failed to authenticate with YouTube API: " ++ m)
          body := none, chunkCalls := 0 }
    | Except.ok _ =>
        let body := build_upload_body title description tags privacy_status
        let lr := next_chunk_loop chunks 0
        match lr.1 with
        | LoopResult.terminal resp =>
            match respLookup resp "id" with
            | some vid =>
                { result := Except.ok vid, body := some body, chunkCalls := lr.2 }
            | none =>
                { result := Except.error
                    "Failed to upload video to YouTube: Upload completed but no video ID returned"
                  body := some body, chunkCalls := lr.2 }
        | LoopResult.retriesExceeded m =>
            { result := Except.error ("Failed to upload video to YouTube: " ++ m)
              body := some body, chunkCalls := lr.2 }
        | LoopResult.starved =>
            { result := Except.error "chunk trace exhausted before a terminal result"
              body := some body, chunkCalls := lr.2 }

/-! ## Transform utilities (`src/utils.py`) and tag parsing (`src/app.py`) -/

/-- Concatenation of the images of `f`, used to model Python string
operations at character level. -/
def concatMap (f : α → List β) : List α → List β
  | [] => []
  | a :: as => f a ++ concatMap f as

/-- Whitespace test used to model Python's `str.strip()`. -/
def isSpaceChar (c : Char) : Bool := c.isWhitespace

/-- Python `s.split(',')` at character level: splits on every comma,
keeping empty pieces, so `"".split(',') == [""]` and
`",".split(',') == ["", ""]`. -/
def splitComma : List Char → List (List Char)
  | [] => [[]]
  | c :: cs =>
    if c = ',' then [] :: splitComma cs
    else
      match splitComma cs with
      | [] => [[c]]
      | t :: ts => (c :: t) :: ts

/-- Python `s.strip()` at character level: drop leading and trailing
whitespace. -/
def stripChars (s : List Char) : List Char :=
  (((s.dropWhile isSpaceChar).reverse).dropWhile isSpaceChar).reverse

/-- Tag parsing of `process_youtube_short` (`src/app.py` lines 96-97):
`[tag.strip() for tag in tags.split(',') if tag.strip()]`. -/
def parseTagsChars (s : List Char) : List (List Char) :=
  ((splitComma s).map stripChars).filter (fun t => !t.isEmpty)

/-- String-level wrapper of `parseTagsChars`, used by the orchestrator. -/
def parseTags (s : String) : List String :=
  (parseTagsChars s.data).map (fun l => String.mk l)

/-- The single-quote character (code point 39). -/
def quoteChar : Char := Char.ofNat 39

/-- Python single-character `str.replace` at character level: every
occurrence of `c` is replaced by `repl`, other characters are kept. -/
def pyReplaceChar (c : Char) (repl : List Char) (s : List Char) : List Char :=
  concatMap (fun x => if x = c then repl else [x]) s

/-- The escaping of `add_subtitle` (`src/utils.py` line 137):
`subtitle_text.replace("'", "\\'").replace(":", "\\:")` — first every
single quote, then every colon, each replaced by a backslash followed by
the character. -/
def escapeSubtitleChars (s : List Char) : List Char :=
  pyReplaceChar ':' ('\\' :: [':']) (pyReplaceChar quoteChar ('\\' :: [quoteChar]) s)

/-- Text of the `drawtext` filter argument up to the escaped subtitle
text (`src/utils.py` line 144). -/
def subtitleFilterPrefix : List Char := "drawtext=text=".data ++ [quoteChar]

/-- Text of the `drawtext` filter argument after the escaped subtitle
text (`src/utils.py` line 144). -/
def subtitleFilterSuffix : List Char :=
  [quoteChar] ++
    ":fontsize=32:fontcolor=white:x=(w-text_w)/2:y=h-text_h-20:box=1:boxcolor=black@0.7:boxborderw=5".data

/-- The full `drawtext` filter string built by `add_subtitle`
(`src/utils.py` line 144): the f-string substitutes the escaped text
between the two fixed literal parts. -/
def subtitleFilterChars (subtitle_text : List Char) : List Char :=
  subtitleFilterPrefix ++ escapeSubtitleChars subtitle_text ++ subtitleFilterSuffix

/-! ## Orchestrator (`src/app.py`) -/

/-- Local filesystem: association list from path to file content, first
match wins. -/
def FS := List (String × String)

/-- Content of a path, if present; first match wins. -/
def FS.lookup : FS → String → Option String
  | [], _ => none
  | e :: es, p => if e.1 = p then some e.2 else FS.lookup es p

/-- Remove every entry of a path (`os.remove`). -/
def FS.remove : FS → String → FS
  | [], _ => []
  | e :: es, p => if e.1 = p then FS.remove es p else e :: FS.remove es p

/-- Write a file, replacing any previous content (`open(path, 'wb')`). -/
def FS.write (fs : FS) (p c : String) : FS :=
  (p, c) :: FS.remove fs p

/-- One uploaded multipart file (`request.files[...]`). -/
structure FilePart where
  filename : String
  content : String
deriving DecidableEq, Repr

/-- An HTTP request as the handler sees it: declared content type, the
form/JSON fields, the multipart files, and the raw body. -/
structure Req where
  contentType : Option String
  fields : List (String × String)
  files : List (String × FilePart)
  body : String

/-- Field lookup (`data.get` / `'k' in data`). -/
def getField (req : Req) (k : String) : Option String :=
  (List.find? (fun e => e.1 == k) req.fields).map (fun e => e.2)

/-- Field lookup with a default (`data.get(k, d)`). -/
def getFieldD (req : Req) (k d : String) : String :=
  (getField req k).getD d

/-- Multipart file lookup (`'k' in request.files`). -/
def getFile (req : Req) (k : String) : Option FilePart :=
  (List.find? (fun e => e.1 == k) req.files).map (fun e => e.2)

/-- `request.content_type and request.content_type.startswith(pre)`,
with the prefix test at character level. -/
def ctStartsWith (req : Req) (pre : String) : Bool :=
  match req.contentType with
  | none => false
  | some ct => List.isPrefixOf pre.data ct.data

/-- `ALLOWED_VIDEO_EXTENSIONS` (`src/app.py` line 16). -/
def ALLOWED_VIDEO_EXTENSIONS : List String := ["mp4", "avi", "mov", "mkv"]

/-- `ALLOWED_AUDIO_EXTENSIONS` (`src/app.py` line 17). -/
def ALLOWED_AUDIO_EXTENSIONS : List String := ["mp3", "wav", "aac", "m4a"]

/-- `allowed_file` (`src/app.py` lines 19-21): the filename contains a
dot and the lowercased part after the last dot is in the allow-list. -/
def allowed_file (filename : String) (exts : List String) : Bool :=
  let parts := filename.splitOn "."
  decide (2 ≤ parts.length) && exts.contains (parts.getLastD "").toLower

/-- External collaborators of one request: the HTTP download, the three
ffmpeg stages (keyed by the paths and parameters of their invocation,
returning the output file content or the failure diagnostic), and the
YouTube upload (returning the video id or the failure message). -/
structure Oracles where
  download : String → Except String String
  duck : String → String → Except String String
  watermark : String → String → Except String String
  subtitle : String → String → Except String String
  upload : String → String → String → String → List String → String → Except String String

/-- A Python exception: `ValueError` is distinguished because the
handler catches it specially around `save_video_from_request`. -/
inductive PyErr where
  | valueError (msg : String)
  | exn (msg : String)
deriving DecidableEq, Repr

/-- Externally visible invocations made by the handler, in order: the
three conditional transcode stages and the upload (recording the argument
values passed, with the uploaded file content alongside its path). -/
inductive Event where
  | ducking (videoPath audioPath outPath : String)
  | watermark (inPath outPath username : String)
  | subtitle (inPath outPath text : String)
  | upload (path content title description : String)
      (tags : List String) (privacy : String)
deriving DecidableEq, Repr

/-- Privacy argument carried by an upload event, if any. -/
def Event.privacy? : Event → Option String
  | Event.upload _ _ _ _ _ pr => some pr
  | _ => none

/-- True exactly on upload events. -/
def Event.isUpload : Event → Bool
  | Event.upload _ _ _ _ _ _ => true
  | _ => false

/-- True exactly on watermark events. -/
def Event.isWatermark : Event → Bool
  | Event.watermark _ _ _ => true
  | _ => false

/-- True exactly on subtitle events. -/
def Event.isSubtitle : Event → Bool
  | Event.subtitle _ _ _ => true
  | _ => false

/-- Stage index of a transcode event (ducking 0, watermark 1,
subtitle 2); upload events carry none. -/
def Event.stageTag : Event → Option Nat
  | Event.ducking _ _ _ => some 0
  | Event.watermark _ _ _ => some 1
  | Event.subtitle _ _ _ => some 2
  | Event.upload _ _ _ _ _ _ => none

/-- HTTP response of the handler: 200 with a video id, 400 with an error
message, or 500 with an error message. -/
inductive Resp where
  | ok (video_id : String)
  | badRequest (error : String)
  | serverError (error : String)
deriving DecidableEq, Repr

/-- HTTP status code of a response. -/
def Resp.status : Resp → Nat
  | Resp.ok _ => 200
  | Resp.badRequest _ => 400
  | Resp.serverError _ => 500

/-- Result of one handled request: the response, the final filesystem,
and the trace of external invocations. -/
structure RunResult where
  resp : Resp
  fs : FS
  events : List Event

/-- `save_video_from_request` (`src/app.py` lines 23-50): raw
`video/*` body, else `video_url` download, else an acceptable
`video_file` upload; otherwise `ValueError("No valid video input
provided")`.  A download failure is a plain exception, not a
`ValueError`. -/
def save_video_from_request (o : Oracles) (req : Req) (fs : FS) :
    Except PyErr (String × FS) :=
  let video_path := "/tmp/input_video.mp4"
  if ctStartsWith req "video/" then
    Except.ok (video_path, fs.write video_path req.body)
  else
    match getField req "video_url" with
    | some url =>
        match o.download url with
        | Except.ok content => Except.ok (video_path, fs.write video_path content)
        | Except.error m =>
            Except.error (PyErr.exn
              ("Failed to download file from " ++ url ++ ": " ++ m))
    | none =>
        match getFile req "video_file" with
        | some f =>
            if f.filename != "" && allowed_file f.filename ALLOWED_VIDEO_EXTENSIONS then
              Except.ok (video_path, fs.write video_path f.content)
            else
              Except.error (PyErr.valueError "No valid video input provided")
        | none => Except.error (PyErr.valueError "No valid video input provided")

/-- `save_audio_from_request` (`src/app.py` lines 52-79): like the video
variant but optional — no source simply yields `none`. -/
def save_audio_from_request (o : Oracles) (req : Req) (fs : FS) :
    Except PyErr (Option String × FS) :=
  let audio_path := "/tmp/input_audio.mp3"
  if ctStartsWith req "audio/" then
    Except.ok (some audio_path, fs.write audio_path req.body)
  else
    match getField req "audio_url" with
    | some url =>
        match o.download url with
        | Except.ok content =>
            Except.ok (some audio_path, fs.write audio_path content)
        | Except.error m =>
            Except.error (PyErr.exn
              ("Failed to download file from " ++ url ++ ": " ++ m))
    | none =>
        match getFile req "audio_file" with
        | some f =>
            if f.filename != "" && allowed_file f.filename ALLOWED_AUDIO_EXTENSIONS then
              Except.ok (some audio_path, fs.write audio_path f.content)
            else
              Except.ok (none, fs)
        | none => Except.ok (none, fs)

/-- The fixed list of temporary paths removed on success
(`src/app.py` lines 149-156). -/
def cleanupPaths : List String :=
  ["/tmp/input_video.mp4", "/tmp/input_audio.mp3", "/tmp/ducked_video.mp4",
   "/tmp/watermark_video.mp4", "/tmp/subtitle_video.mp4", "/tmp/final_output.mp4"]

/-- One iteration of the cleanup loop (`src/app.py` lines 158-161):
remove the path if it exists, silently skip it otherwise. -/
def cleanupStep (fs : FS) (p : String) : FS :=
  if (fs.lookup p).isSome then fs.remove p else fs

/-- The whole cleanup loop over the fixed path list. -/
def cleanup (paths : List String) (fs : FS) : FS :=
  paths.foldl cleanupStep fs

/-- Steps 6-7 and the success path of `process_youtube_short`
(`src/app.py` lines 134-168): rename the current artifact to the fixed
final path, upload it, clean up on success.  A missing rename source is
an uncaught `OSError` (500). -/
def finish_pipeline (o : Oracles) (title description : String) (tags : List String)
    (videoPath : String) (fs : FS) (evs : List Event) : RunResult :=
  match fs.lookup videoPath with
  | none =>
      { resp := Resp.serverError ("No such file or directory: " ++ videoPath)
        fs := fs, events := evs }
  | some c =>
      let fs1 := (fs.remove videoPath).write "/tmp/final_output.mp4" c
      let evs1 := evs ++ [Event.upload "/tmp/final_output.mp4" c title description
        tags uploadDefaultPrivacy]
      match o.upload "/tmp/final_output.mp4" c title description tags
          uploadDefaultPrivacy with
      | Except.error m => { resp := Resp.serverError m, fs := fs1, events := evs1 }
      | Except.ok vid =>
          { resp := Resp.ok vid, fs := cleanup cleanupPaths fs1, events := evs1 }

/-- Step 5 of `process_youtube_short` (`src/app.py` lines 127-132): add
the subtitle only when the caption text is nonempty. -/
def subtitle_step (o : Oracles) (subtitle_text title description : String)
    (tags : List String) (videoPath : String) (fs : FS) (evs : List Event) :
    RunResult :=
  if subtitle_text != "" then
    let outP := "/tmp/subtitle_video.mp4"
    let evs1 := evs ++ [Event.subtitle videoPath outP subtitle_text]
    match o.subtitle videoPath subtitle_text with
    | Except.error m =>
        { resp := Resp.serverError
            ("Failed to add subtitle: Subtitle addition failed: " ++ m)
          fs := fs, events := evs1 }
    | Except.ok c =>
        finish_pipeline o title description tags outP (fs.write outP c) evs1
  else
    finish_pipeline o title description tags videoPath fs evs

/-- Step 4 of `process_youtube_short` (`src/app.py` lines 120-125): add
the watermark only when the username is nonempty. -/
def watermark_step (o : Oracles) (username subtitle_text title description : String)
    (tags : List String) (videoPath : String) (fs : FS) (evs : List Event) :
    RunResult :=
  if username != "" then
    let outP := "/tmp/watermark_video.mp4"
    let evs1 := evs ++ [Event.watermark videoPath outP username]
    match o.watermark videoPath username with
    | Except.error m =>
        { resp := Resp.serverError
            ("Failed to add watermark: Watermark addition failed: " ++ m)
          fs := fs, events := evs1 }
    | Except.ok c =>
        subtitle_step o subtitle_text title description tags outP (fs.write outP c) evs1
  else
    subtitle_step o subtitle_text title description tags videoPath fs evs

/-- Step 3 of `process_youtube_short` (`src/app.py` lines 113-118):
apply ducking only when an audio artifact was acquired. -/
def ducking_step (o : Oracles) (username subtitle_text title description : String)
    (tags : List String) (videoPath : String) (audioPath : Option String)
    (fs : FS) (evs : List Event) : RunResult :=
  match audioPath with
  | some ap =>
      let outP := "/tmp/ducked_video.mp4"
      let evs1 := evs ++ [Event.ducking videoPath ap outP]
      match o.duck videoPath ap with
      | Except.error m =>
          { resp := Resp.serverError
              ("Failed to apply audio ducking: Audio ducking failed: " ++ m)
            fs := fs, events := evs1 }
      | Except.ok c =>
          watermark_step o username subtitle_text title description tags outP
            (fs.write outP c) evs1
  | none =>
      watermark_step o username subtitle_text title description tags videoPath fs evs

/-- `process_youtube_short` (`src/app.py` lines 81-175): extract the
metadata fields, acquire the video (a `ValueError` is a 400), acquire the
optional audio, run the conditional stages in fixed order, rename, upload,
clean up; any other exception is a 500. -/
def process_youtube_short (o : Oracles) (req : Req) (fs0 : FS) : RunResult :=
  let username := getFieldD req "username" ""
  let subtitle_text := getFieldD req "subtitle_text" ""
  let title := getFieldD req "title" "YouTube Short"
  let description := getFieldD req "description" ""
  let tags := parseTags (getFieldD req "tags" "")
  match save_video_from_request o req fs0 with
  | Except.error (PyErr.valueError m) =>
      { resp := Resp.badRequest m, fs := fs0, events := [] }
  | Except.error (PyErr.exn m) =>
      { resp := Resp.serverError m, fs := fs0, events := [] }
  | Except.ok (videoPath, fs1) =>
      match save_audio_from_request o req fs1 with
      | Except.error (PyErr.valueError m) =>
          { resp := Resp.serverError m, fs := fs1, events := [] }
      | Except.error (PyErr.exn m) =>
          { resp := Resp.serverError m, fs := fs1, events := [] }
      | Except.ok (audioPath, fs2) =>
          ducking_step o username subtitle_text title description tags videoPath
            audioPath fs2 []

/-- Content that `save_video_from_request` writes to the fixed input
video path when it succeeds, `none` when it raises: the raw body, the
downloaded content, or the accepted upload's content. -/
def savedVideoContent (o : Oracles) (req : Req) : Option String :=
  if ctStartsWith req "video/" then some req.body
  else
    match getField req "video_url" with
    | some url =>
        match o.download url with
        | Except.ok content => some content
        | Except.error _ => none
    | none =>
        match getFile req "video_file" with
        | some f =>
            if f.filename != "" && allowed_file f.filename ALLOWED_VIDEO_EXTENSIONS then
              some f.content
            else none
        | none => none

/-- Content that `save_audio_from_request` writes to the fixed input
audio path when it acquires audio, `none` when audio is absent or the
download raises. -/
def savedAudioContent (o : Oracles) (req : Req) : Option String :=
  if ctStartsWith req "audio/" then some req.body
  else
    match getField req "audio_url" with
    | some url =>
        match o.download url with
        | Except.ok content => some content
        | Except.error _ => none
    | none =>
        match getFile req "audio_file" with
        | some f =>
            if f.filename != "" && allowed_file f.filename ALLOWED_AUDIO_EXTENSIONS then
              some f.content
            else none
        | none => none

/-- An event either carries no privacy argument or carries `"public"`. -/
def privacyOk (e : Event) : Prop :=
  e.privacy? = none ∨ e.privacy? = some "public"

/-- Oracles whose every external call succeeds with fixed content, used
to evaluate concrete runs. -/
def happyOracles : Oracles :=
  { download := fun _ => Except.ok "dl"
    duck := fun _ _ => Except.ok "ducked"
    watermark := fun _ _ => Except.ok "wmk"
    subtitle := fun _ _ => Except.ok "sub"
    upload := fun _ _ _ _ _ _ => Except.ok "vid123" }

/-- A request with no video source at all. -/
def emptyReq : Req :=
  { contentType := none, fields := [], files := [], body := "" }

/-- A request posting a raw video body and nothing else. -/
def rawVideoReq : Req :=
  { contentType := some "video/mp4", fields := [], files := [], body := "RAWVIDEO" }

/-! ## Theorems about the upload state machine -/

/-- C1: in the upload loop of `upload_video_to_youtube`, a chunk-send trace
that raises on attempts 1-3 and returns a terminal result carrying an
identifier on attempt 4 makes the function return that identifier after
exactly 4 chunk-send attempts; a trace that raises on all of attempts 1-4
makes it fail after exactly 4 attempts, the error message wrapping the
last chunk-send exception's message, with no backoff modelled anywhere
between attempts. -/
theorem upload_retry_three_then_success_or_four_failures
    (fsE : String → Bool) (path title description : String)
    (tags : Option (List String)) (priv : String)
    (m1 m2 m3 m4 vid : String) (hfs : fsE path = true) :
    (upload_video_to_youtube fsE (Except.ok ())
        [ChunkOutcome.exn m1, ChunkOutcome.exn m2, ChunkOutcome.exn m3,
         ChunkOutcome.done [("id", vid)]]
        path title description tags priv).result = Except.ok vid
    ∧ (upload_video_to_youtube fsE (Except.ok ())
        [ChunkOutcome.exn m1, ChunkOutcome.exn m2, ChunkOutcome.exn m3,
         ChunkOutcome.done [("id", vid)]]
        path title description tags priv).chunkCalls = 4
    ∧ (upload_video_to_youtube fsE (Except.ok ())
        [ChunkOutcome.exn m1, ChunkOutcome.exn m2, ChunkOutcome.exn m3,
         ChunkOutcome.exn m4]
        path title description tags priv).result
      = Except.error
          ("Failed to upload video to YouTube: Upload failed after 3 retries: " ++ m4)
    ∧ (upload_video_to_youtube fsE (Except.ok ())
        [ChunkOutcome.exn m1, ChunkOutcome.exn m2, ChunkOutcome.exn m3,
         ChunkOutcome.exn m4]
        path title description tags priv).chunkCalls = 4 := by
  simp [upload_video_to_youtube, next_chunk_loop, respLookup, hfs]
  rw [← String.append_assoc]
  rfl

/-- Witness for C1 at a concrete input. -/
theorem upload_retry_three_then_success_or_four_failures_witness :
    (upload_video_to_youtube (fun _ => true) (Except.ok ())
        [ChunkOutcome.exn "e1", ChunkOutcome.exn "e2", ChunkOutcome.exn "e3",
         ChunkOutcome.done [("id", "vid9")]]
        "/tmp/final_output.mp4" "t" "d" none "public").result = Except.ok "vid9" :=
  (upload_retry_three_then_success_or_four_failures (fun _ => true)
    "/tmp/final_output.mp4" "t" "d" none "public" "e1" "e2" "e3" "e4" "vid9" rfl).1

/-- C2: if the chunk-send loop of `upload_video_to_youtube` ends with a
terminal result that has no `id` field, the function raises the
distinguishable "Upload completed but no video ID returned" error (wrapped
by the outer handler) and never returns an identifier. -/
theorem upload_terminal_without_id_fails
    (fsE : String → Bool) (chunks : List ChunkOutcome)
    (path title description : String) (tags : Option (List String)) (priv : String)
    (resp : List (String × String)) (hfs : fsE path = true)
    (hterm : (next_chunk_loop chunks 0).1 = LoopResult.terminal resp)
    (hnoid : respLookup resp "id" = none) :
    (upload_video_to_youtube fsE (Except.ok ()) chunks
        path title description tags priv).result
      = Except.error
          "Failed to upload video to YouTube: Upload completed but no video ID returned"
    ∧ ∀ v, (upload_video_to_youtube fsE (Except.ok ()) chunks
        path title description tags priv).result ≠ Except.ok v := by
  constructor
  · simp [upload_video_to_youtube, hfs, hterm, hnoid]
  · intro v
    simp [upload_video_to_youtube, hfs, hterm, hnoid]

/-- Witness for C2 at a concrete input. -/
theorem upload_terminal_without_id_fails_witness :
    (upload_video_to_youtube (fun _ => true) (Except.ok ())
        [ChunkOutcome.done [("kind", "youtube#video")]]
        "/tmp/final_output.mp4" "t" "d" none "public").result
      = Except.error
          "Failed to upload video to YouTube: Upload completed but no video ID returned" :=
  (upload_terminal_without_id_fails (fun _ => true)
    [ChunkOutcome.done [("kind", "youtube#video")]]
    "/tmp/final_output.mp4" "t" "d" none "public"
    [("kind", "youtube#video")] rfl rfl rfl).1

/-- C3: when the video path does not exist on the local filesystem,
`upload_video_to_youtube` fails with the "Video file not found" error
before any chunk-send attempt: zero `next_chunk()` calls are made, for
every chunk trace, so the retry counter is never incremented. -/
theorem upload_missing_file_fails_before_any_chunk
    (fsE : String → Bool) (auth : Except String Unit) (chunks : List ChunkOutcome)
    (path title description : String) (tags : Option (List String)) (priv : String)
    (hfs : fsE path = false) :
    (upload_video_to_youtube fsE auth chunks path title description tags priv).result
      = Except.error
          ("Failed to upload video to YouTube: Video file not found: " ++ path)
    ∧ (upload_video_to_youtube fsE auth chunks
        path title description tags priv).chunkCalls = 0 := by
  simp [upload_video_to_youtube, hfs]

/-- Witness for C3 at a concrete input. -/
theorem upload_missing_file_fails_before_any_chunk_witness :
    (upload_video_to_youtube (fun _ => false) (Except.ok ())
        [ChunkOutcome.done [("id", "v")]]
        "/tmp/final_output.mp4" "t" "d" none "public").chunkCalls = 0 :=
  (upload_missing_file_fails_before_any_chunk (fun _ => false) (Except.ok ())
    [ChunkOutcome.done [("id", "v")]]
    "/tmp/final_output.mp4" "t" "d" none "public" rfl).2

/-- C7: the metadata body built by `upload_video_to_youtube` carries the
given title, description and tag list (the empty list when `tags` is
`None`), the fixed category identifier `"22"`, the given privacy status,
and the made-for-kids flag `false`, for all inputs. -/
theorem upload_body_fields (title description : String)
    (tags : Option (List String)) (priv : String) :
    (build_upload_body title description tags priv).snippet.title = title
    ∧ (build_upload_body title description tags priv).snippet.description = description
    ∧ (build_upload_body title description tags priv).snippet.tags = tags.getD []
    ∧ (build_upload_body title description tags priv).snippet.categoryId = "22"
    ∧ (build_upload_body title description tags priv).status.privacyStatus = priv
    ∧ (build_upload_body title description tags priv).status.selfDeclaredMadeForKids
        = false := by
  refine ⟨rfl, rfl, ?_, rfl, rfl, rfl⟩
  cases tags with
  | none => rfl
  | some ts => cases ts <;> simp [build_upload_body]

/-! ## Theorems about subtitle escaping and tag parsing -/

theorem concatMap_append (f : α → List β) (l₁ l₂ : List α) :
    concatMap f (l₁ ++ l₂) = concatMap f l₁ ++ concatMap f l₂ := by
  induction l₁ with
  | nil => rfl
  | cons a as ih => simp [concatMap, ih]

theorem escapeSubtitleChars_cons (c : Char) (cs : List Char) :
    escapeSubtitleChars (c :: cs)
      = (if c = quoteChar ∨ c = ':' then ['\\', c] else [c]) ++ escapeSubtitleChars cs := by
  unfold escapeSubtitleChars pyReplaceChar
  simp only [concatMap]
  rw [concatMap_append]
  by_cases h1 : c = quoteChar
  · subst h1
    simp [concatMap, show ('\\' = ':') = False by decide,
      show (quoteChar = ':') = False by decide]
  · by_cases h2 : c = ':'
    · subst h2
      simp [concatMap, h1, show (':' = quoteChar) = False by decide,
        show ('\\' = ':') = False by decide]
    · simp [concatMap, h1, h2]

/-- C6: `add_subtitle` escapes every single-quote and every colon of the
subtitle text, each prefixed with a backslash and all other characters
unchanged, and the `drawtext` filter string it builds embeds exactly this
escaped text between its two fixed literal parts. -/
theorem subtitle_filter_escapes (s : List Char) :
    escapeSubtitleChars s
      = concatMap (fun c => if c = quoteChar ∨ c = ':' then ['\\', c] else [c]) s
    ∧ subtitleFilterChars s
      = subtitleFilterPrefix ++ escapeSubtitleChars s ++ subtitleFilterSuffix := by
  refine ⟨?_, rfl⟩
  induction s with
  | nil => rfl
  | cons c cs ih => rw [escapeSubtitleChars_cons, ih]; rfl

theorem head?_dropWhile_false (p : Char → Bool) (l : List Char) (a : Char)
    (h : (l.dropWhile p).head? = some a) : p a = false := by
  induction l with
  | nil => simp [List.dropWhile] at h
  | cons c cs ih =>
    rw [List.dropWhile_cons] at h
    by_cases hp : p c
    · rw [if_pos hp] at h; exact ih h
    · rw [if_neg hp] at h
      simp only [List.head?_cons, Option.some.injEq] at h
      subst h
      exact Bool.not_eq_true _ ▸ Bool.of_not_eq_true hp

theorem getLast?_dropWhile_ne_nil (p : Char → Bool) (l : List Char)
    (h : l.dropWhile p ≠ []) : (l.dropWhile p).getLast? = l.getLast? := by
  induction l with
  | nil => simp [List.dropWhile] at h
  | cons c cs ih =>
    rw [List.dropWhile_cons] at h ⊢
    by_cases hp : p c
    · rw [if_pos hp] at h ⊢
      rw [ih h]
      have hcs : cs ≠ [] := by
        intro hE
        rw [hE] at h
        simp [List.dropWhile] at h
      cases cs with
      | nil => exact absurd rfl hcs
      | cons d ds => rw [List.getLast?_cons_cons]
    · rw [if_neg hp]

theorem stripChars_head_spaceless (x : List Char) (a : Char)
    (ha : (stripChars x).head? = some a) : isSpaceChar a = false := by
  rw [stripChars, List.head?_reverse] at ha
  have hne : (List.dropWhile isSpaceChar (List.dropWhile isSpaceChar x).reverse) ≠ [] := by
    intro hE
    rw [hE] at ha
    simp at ha
  rw [getLast?_dropWhile_ne_nil _ _ hne, List.getLast?_reverse] at ha
  exact head?_dropWhile_false _ _ _ ha

theorem stripChars_getLast_spaceless (x : List Char) (a : Char)
    (ha : (stripChars x).getLast? = some a) : isSpaceChar a = false := by
  rw [stripChars, List.getLast?_reverse] at ha
  exact head?_dropWhile_false _ _ _ ha

theorem parseTagsChars_all_commas (s : List Char) (h : ∀ c ∈ s, c = ',') :
    parseTagsChars s = [] := by
  induction s with
  | nil => rfl
  | cons c cs ih =>
    have hc : c = ',' := h c (by simp)
    subst hc
    have := ih (fun c hc => h c (List.mem_cons_of_mem _ hc))
    simpa [parseTagsChars, splitComma, stripChars] using this

/-- C10: the orchestrator's tag parsing (split on commas, strip each
piece, drop empty pieces) never yields an empty tag or a tag with leading
or trailing whitespace, and an empty or all-commas string (the empty
string included, vacuously) yields the empty list. -/
theorem tags_parsed_trimmed_nonempty :
    (∀ (s : List Char), ∀ t ∈ parseTagsChars s,
        t ≠ []
        ∧ (∀ a, t.head? = some a → isSpaceChar a = false)
        ∧ (∀ a, t.getLast? = some a → isSpaceChar a = false))
    ∧ (∀ (s : List Char), (∀ c ∈ s, c = ',') → parseTagsChars s = []) := by
  refine ⟨?_, parseTagsChars_all_commas⟩
  intro s t ht
  rw [parseTagsChars, List.mem_filter] at ht
  obtain ⟨hmem, hne⟩ := ht
  rw [List.mem_map] at hmem
  obtain ⟨x, _, hx⟩ := hmem
  subst hx
  refine ⟨?_, stripChars_head_spaceless x, stripChars_getLast_spaceless x⟩
  simpa using hne

/-- Witness for C10 at concrete inputs: the tag parsed from a padded
input is nonempty, and an all-commas string parses to the empty list. -/
theorem tags_parsed_trimmed_nonempty_witness :
    String.data "ab" ≠ [] ∧ parseTagsChars (String.data ",,,") = [] :=
  ⟨(tags_parsed_trimmed_nonempty.1 (String.data " ab ,")
      (String.data "ab") (by decide)).1,
   tags_parsed_trimmed_nonempty.2 (String.data ",,,") (by decide)⟩

/-! ## Theorems about the orchestrator -/

/-- C4: a POST /run request with none of the three video-source forms (no
`video/*` content type, no `video_url` field, no acceptable `video_file`
upload) is answered with HTTP 400 carrying the explanatory message, and
no external invocation — in particular no upload — is made. -/
theorem missing_video_source_gives_400
    (o : Oracles) (req : Req) (fs0 : FS)
    (hct : ctStartsWith req "video/" = false)
    (hurl : getField req "video_url" = none)
    (hfile : ∀ f, getFile req "video_file" = some f →
      (f.filename != "" && allowed_file f.filename ALLOWED_VIDEO_EXTENSIONS) = false) :
    (process_youtube_short o req fs0).resp
        = Resp.badRequest "No valid video input provided"
    ∧ (process_youtube_short o req fs0).resp.status = 400
    ∧ (process_youtube_short o req fs0).events = [] := by
  have hsv : save_video_from_request o req fs0
      = Except.error (PyErr.valueError "No valid video input provided") := by
    unfold save_video_from_request
    rw [hct]
    simp only [Bool.false_eq_true, if_false]
    rw [hurl]
    cases hgf : getFile req "video_file" with
    | none => rfl
    | some f => simp [hfile f hgf]
  refine ⟨?_, ?_, ?_⟩ <;> simp [process_youtube_short, hsv, Resp.status]

/-- Witness for C4 at a concrete input. -/
theorem missing_video_source_gives_400_witness :
    (process_youtube_short happyOracles emptyReq []).resp.status = 400 :=
  (missing_video_source_gives_400 happyOracles emptyReq [] rfl rfl
    (fun f h => by simp [getFile, emptyReq] at h)).2.1

theorem lookup_remove_self (fs : FS) (p : String) :
    FS.lookup (FS.remove fs p) p = none := by
  induction fs with
  | nil => rfl
  | cons e es ih =>
    by_cases h : e.1 = p
    · simpa [FS.remove, h] using ih
    · simpa [FS.remove, FS.lookup, h] using ih

theorem lookup_remove_none (fs : FS) (p q : String) (h : FS.lookup fs p = none) :
    FS.lookup (FS.remove fs q) p = none := by
  induction fs with
  | nil => rfl
  | cons e es ih =>
    by_cases hep : e.1 = p
    · simp [FS.lookup, hep] at h
    · rw [FS.lookup, if_neg hep] at h
      have ih2 := ih h
      by_cases heq : e.1 = q
      · simpa [FS.remove, heq] using ih2
      · simpa [FS.remove, FS.lookup, heq, hep] using ih2

theorem lookup_cleanupStep_self (fs : FS) (p : String) :
    FS.lookup (cleanupStep fs p) p = none := by
  unfold cleanupStep
  by_cases hq : (FS.lookup fs p).isSome
  · simp [hq, lookup_remove_self]
  · rw [Option.not_isSome_iff_eq_none] at hq
    simp [hq]

theorem cleanupStep_preserves_none (fs : FS) (p q : String)
    (h : FS.lookup fs p = none) : FS.lookup (cleanupStep fs q) p = none := by
  unfold cleanupStep
  by_cases hq : (FS.lookup fs q).isSome
  · simp [hq, lookup_remove_none _ _ _ h]
  · simp [hq, h]

theorem cleanup_preserves_none (paths : List String) (fs : FS) (p : String)
    (h : FS.lookup fs p = none) : FS.lookup (cleanup paths fs) p = none := by
  induction paths generalizing fs with
  | nil => exact h
  | cons q qs ih => exact ih _ (cleanupStep_preserves_none _ _ _ h)

theorem cleanup_removes (paths : List String) (p : String) :
    p ∈ paths → ∀ fs, FS.lookup (cleanup paths fs) p = none := by
  induction paths with
  | nil => intro hp; cases hp
  | cons q qs ih =>
    intro hp fs
    rcases List.mem_cons.mp hp with h | h
    · subst h
      exact cleanup_preserves_none qs _ _ (lookup_cleanupStep_self fs p)
    · exact ih h _

theorem finish_ok_fs (o : Oracles) (ti d : String) (tg : List String)
    (vp : String) (fs : FS) (evs : List Event) (vid : String)
    (h : (finish_pipeline o ti d tg vp fs evs).resp = Resp.ok vid) :
    ∃ fs', (finish_pipeline o ti d tg vp fs evs).fs = cleanup cleanupPaths fs' := by
  unfold finish_pipeline at h ⊢
  cases hl : FS.lookup fs vp with
  | none => simp [hl] at h
  | some c =>
    cases hu : o.upload "/tmp/final_output.mp4" c ti d tg uploadDefaultPrivacy with
    | error m => simp [hl, hu] at h
    | ok v =>
        simp only [hl, hu]
        exact ⟨_, rfl⟩

theorem subtitle_ok_fs (o : Oracles) (st ti d : String) (tg : List String)
    (vp : String) (fs : FS) (evs : List Event) (vid : String)
    (h : (subtitle_step o st ti d tg vp fs evs).resp = Resp.ok vid) :
    ∃ fs', (subtitle_step o st ti d tg vp fs evs).fs = cleanup cleanupPaths fs' := by
  unfold subtitle_step at h ⊢
  cases hs : (st != "") with
  | false =>
      simp only [hs, Bool.false_eq_true, if_false] at h ⊢
      exact finish_ok_fs _ _ _ _ _ _ _ _ h
  | true =>
    simp only [hs, if_true] at h ⊢
    cases hsub : o.subtitle vp st with
    | error m => simp [hsub] at h
    | ok c =>
        simp only [hsub] at h ⊢
        exact finish_ok_fs _ _ _ _ _ _ _ _ h

theorem watermark_ok_fs (o : Oracles) (un st ti d : String) (tg : List String)
    (vp : String) (fs : FS) (evs : List Event) (vid : String)
    (h : (watermark_step o un st ti d tg vp fs evs).resp = Resp.ok vid) :
    ∃ fs', (watermark_step o un st ti d tg vp fs evs).fs = cleanup cleanupPaths fs' := by
  unfold watermark_step at h ⊢
  cases hs : (un != "") with
  | false =>
      simp only [hs, Bool.false_eq_true, if_false] at h ⊢
      exact subtitle_ok_fs _ _ _ _ _ _ _ _ _ h
  | true =>
    simp only [hs, if_true] at h ⊢
    cases hw : o.watermark vp un with
    | error m => simp [hw] at h
    | ok c =>
        simp only [hw] at h ⊢
        exact subtitle_ok_fs _ _ _ _ _ _ _ _ _ h

theorem ducking_ok_fs (o : Oracles) (un st ti d : String) (tg : List String)
    (vp : String) (ap : Option String) (fs : FS) (evs : List Event) (vid : String)
    (h : (ducking_step o un st ti d tg vp ap fs evs).resp = Resp.ok vid) :
    ∃ fs', (ducking_step o un st ti d tg vp ap fs evs).fs = cleanup cleanupPaths fs' := by
  unfold ducking_step at h ⊢
  cases ap with
  | none => exact watermark_ok_fs _ _ _ _ _ _ _ _ _ _ h
  | some a =>
    cases hd : o.duck vp a with
    | error m => simp only [hd] at h; simp at h
    | ok c =>
        simp only [hd] at h ⊢
        exact watermark_ok_fs _ _ _ _ _ _ _ _ _ _ h

theorem process_ok_fs (o : Oracles) (req : Req) (fs0 : FS) (vid : String)
    (h : (process_youtube_short o req fs0).resp = Resp.ok vid) :
    ∃ fs', (process_youtube_short o req fs0).fs = cleanup cleanupPaths fs' := by
  unfold process_youtube_short at h ⊢
  cases hsv : save_video_from_request o req fs0 with
  | error e =>
      cases e <;> simp [hsv] at h
  | ok pfs =>
      obtain ⟨vp, fs1⟩ := pfs
      simp only [hsv] at h ⊢
      cases hsa : save_audio_from_request o req fs1 with
      | error e => cases e <;> simp [hsa] at h
      | ok afs =>
          obtain ⟨ap, fs2⟩ := afs
          simp only [hsa] at h ⊢
          exact ducking_ok_fs _ _ _ _ _ _ _ _ _ _ _ h

/-- C8: on the success path of the orchestrator (the upload returned an
identifier), each of the six fixed artifact paths is absent from the
final filesystem — removed if it existed — and the cleanup loop's step
on a path that does not exist returns the filesystem unchanged (silently
skipped), regardless of which stages ran. -/
theorem success_cleans_all_artifacts :
    (∀ (o : Oracles) (req : Req) (fs0 : FS) (vid : String),
        (process_youtube_short o req fs0).resp = Resp.ok vid →
        ∀ p ∈ cleanupPaths,
          FS.lookup (process_youtube_short o req fs0).fs p = none)
    ∧ (∀ (fs : FS) (p : String), FS.lookup fs p = none → cleanupStep fs p = fs) := by
  constructor
  · intro o req fs0 vid h p hp
    obtain ⟨fs', hfs⟩ := process_ok_fs o req fs0 vid h
    rw [hfs]
    exact cleanup_removes cleanupPaths p hp fs'
  · intro fs p h
    simp [cleanupStep, h]

/-- Witness for C8 at a concrete input: a successful raw-body run leaves
no input-video artifact behind. -/
theorem success_cleans_all_artifacts_witness :
    FS.lookup (process_youtube_short happyOracles rawVideoReq []).fs
      "/tmp/input_video.mp4" = none :=
  success_cleans_all_artifacts.1 happyOracles rawVideoReq [] "vid123"
    (by decide) "/tmp/input_video.mp4" (by decide)

theorem privacyOk_finish (o : Oracles) (ti d : String) (tg : List String)
    (vp : String) (fs : FS) (evs : List Event) :
    ∀ e ∈ (finish_pipeline o ti d tg vp fs evs).events, e ∈ evs ∨ privacyOk e := by
  intro e he
  unfold finish_pipeline at he
  cases hl : FS.lookup fs vp with
  | none =>
      simp [hl] at he
      exact Or.inl he
  | some c =>
    cases hu : o.upload "/tmp/final_output.mp4" c ti d tg uploadDefaultPrivacy with
    | error m =>
        simp [hl, hu] at he
        rcases he with he | he
        · exact Or.inl he
        · right; rw [he]; exact Or.inr rfl
    | ok v =>
        simp [hl, hu] at he
        rcases he with he | he
        · exact Or.inl he
        · right; rw [he]; exact Or.inr rfl

theorem privacyOk_subtitle (o : Oracles) (st ti d : String) (tg : List String)
    (vp : String) (fs : FS) (evs : List Event) :
    ∀ e ∈ (subtitle_step o st ti d tg vp fs evs).events, e ∈ evs ∨ privacyOk e := by
  intro e he
  unfold subtitle_step at he
  cases hs : (st != "") with
  | false =>
      simp only [hs, Bool.false_eq_true, if_false] at he
      exact privacyOk_finish _ _ _ _ _ _ _ e he
  | true =>
      simp only [hs, if_true] at he
      cases hsub : o.subtitle vp st with
      | error m =>
          simp [hsub] at he
          rcases he with he | he
          · exact Or.inl he
          · right; rw [he]; exact Or.inl rfl
      | ok c =>
          simp only [hsub] at he
          rcases privacyOk_finish _ _ _ _ _ _ _ e he with hm | hp
          · rcases List.mem_append.mp hm with h1 | h1
            · exact Or.inl h1
            · right
              have he2 : e = Event.subtitle vp "/tmp/subtitle_video.mp4" st := by
                simpa using h1
              rw [he2]; exact Or.inl rfl
          · exact Or.inr hp

theorem privacyOk_watermark (o : Oracles) (un st ti d : String) (tg : List String)
    (vp : String) (fs : FS) (evs : List Event) :
    ∀ e ∈ (watermark_step o un st ti d tg vp fs evs).events, e ∈ evs ∨ privacyOk e := by
  intro e he
  unfold watermark_step at he
  cases hs : (un != "") with
  | false =>
      simp only [hs, Bool.false_eq_true, if_false] at he
      exact privacyOk_subtitle _ _ _ _ _ _ _ _ e he
  | true =>
      simp only [hs, if_true] at he
      cases hw : o.watermark vp un with
      | error m =>
          simp [hw] at he
          rcases he with he | he
          · exact Or.inl he
          · right; rw [he]; exact Or.inl rfl
      | ok c =>
          simp only [hw] at he
          rcases privacyOk_subtitle _ _ _ _ _ _ _ _ e he with hm | hp
          · rcases List.mem_append.mp hm with h1 | h1
            · exact Or.inl h1
            · right
              have he2 : e = Event.watermark vp "/tmp/watermark_video.mp4" un := by
                simpa using h1
              rw [he2]; exact Or.inl rfl
          · exact Or.inr hp

theorem privacyOk_ducking (o : Oracles) (un st ti d : String) (tg : List String)
    (vp : String) (ap : Option String) (fs : FS) (evs : List Event) :
    ∀ e ∈ (ducking_step o un st ti d tg vp ap fs evs).events, e ∈ evs ∨ privacyOk e := by
  intro e he
  unfold ducking_step at he
  cases ap with
  | none => exact privacyOk_watermark _ _ _ _ _ _ _ _ _ e he
  | some a =>
      cases hd : o.duck vp a with
      | error m =>
          simp [hd] at he
          rcases he with he | he
          · exact Or.inl he
          · right; rw [he]; exact Or.inl rfl
      | ok c =>
          simp only [hd] at he
          rcases privacyOk_watermark _ _ _ _ _ _ _ _ _ e he with hm | hp
          · rcases List.mem_append.mp hm with h1 | h1
            · exact Or.inl h1
            · right
              have he2 : e = Event.ducking vp a "/tmp/ducked_video.mp4" := by
                simpa using h1
              rw [he2]; exact Or.inl rfl
          · exact Or.inr hp

/-- C9: the orchestrator passes the upload function's default privacy
value, which is `"public"`, so every event of every handled request
either carries no privacy argument or carries `"public"`; no request
field can change it. -/
theorem upload_privacy_always_public :
    uploadDefaultPrivacy = "public"
    ∧ ∀ (o : Oracles) (req : Req) (fs0 : FS),
        ∀ e ∈ (process_youtube_short o req fs0).events, privacyOk e := by
  refine ⟨rfl, ?_⟩
  intro o req fs0 e he
  unfold process_youtube_short at he
  cases hsv : save_video_from_request o req fs0 with
  | error e' => cases e' <;> simp [hsv] at he
  | ok pfs =>
      obtain ⟨vp, fs1⟩ := pfs
      simp only [hsv] at he
      cases hsa : save_audio_from_request o req fs1 with
      | error e' => cases e' <;> simp [hsa] at he
      | ok afs =>
          obtain ⟨ap, fs2⟩ := afs
          simp only [hsa] at he
          rcases privacyOk_ducking _ _ _ _ _ _ _ _ _ _ e he with hm | hp
          · simp at hm
          · exact hp

/-- Witness for C9 at a concrete input: the upload event of a raw-body
run carries privacy `"public"`. -/
theorem upload_privacy_always_public_witness :
    privacyOk
      (Event.upload "/tmp/final_output.mp4" "RAWVIDEO" "YouTube Short" "" [] "public") :=
  upload_privacy_always_public.2 happyOracles rawVideoReq []
    (Event.upload "/tmp/final_output.mp4" "RAWVIDEO" "YouTube Short" "" [] "public")
    (by decide)

theorem lookup_write_self (fs : FS) (p c : String) :
    FS.lookup (FS.write fs p c) p = some c := by
  simp [FS.write, FS.lookup]

theorem save_video_ok_shape (o : Oracles) (req : Req) (fs : FS) (vp : String)
    (fs' : FS) (h : save_video_from_request o req fs = Except.ok (vp, fs')) :
    vp = "/tmp/input_video.mp4"
    ∧ ∃ c, savedVideoContent o req = some c
        ∧ fs' = FS.write fs "/tmp/input_video.mp4" c := by
  unfold save_video_from_request at h
  cases hct : ctStartsWith req "video/" with
  | true =>
      simp only [hct, if_true, Except.ok.injEq, Prod.mk.injEq] at h
      exact ⟨h.1.symm, req.body, by simp [savedVideoContent, hct], h.2.symm⟩
  | false =>
      simp only [hct, Bool.false_eq_true, if_false] at h
      cases hurl : getField req "video_url" with
      | some url =>
          cases hdl : o.download url with
          | ok content =>
              simp only [hurl, hdl, Except.ok.injEq, Prod.mk.injEq] at h
              exact ⟨h.1.symm, content,
                by simp [savedVideoContent, hct, hurl, hdl], h.2.symm⟩
          | error m => simp [hurl, hdl] at h
      | none =>
          cases hgf : getFile req "video_file" with
          | some f =>
              cases hok : (f.filename != ""
                  && allowed_file f.filename ALLOWED_VIDEO_EXTENSIONS) with
              | true =>
                  simp only [hurl, hgf, hok, if_true, Except.ok.injEq,
                    Prod.mk.injEq] at h
                  exact ⟨h.1.symm, f.content,
                    by simp [savedVideoContent, hct, hurl, hgf, hok], h.2.symm⟩
              | false => simp [hurl, hgf, hok] at h
          | none => simp [hurl, hgf] at h

theorem save_audio_ok_none_shape (o : Oracles) (req : Req) (fs fs' : FS)
    (h : save_audio_from_request o req fs = Except.ok (none, fs')) :
    fs' = fs ∧ savedAudioContent o req = none := by
  unfold save_audio_from_request at h
  cases hct : ctStartsWith req "audio/" with
  | true => simp [hct] at h
  | false =>
      simp only [hct, Bool.false_eq_true, if_false] at h
      cases hurl : getField req "audio_url" with
      | some url =>
          cases hdl : o.download url with
          | ok content => simp [hurl, hdl] at h
          | error m => simp [hurl, hdl] at h
      | none =>
          cases hgf : getFile req "audio_file" with
          | some f =>
              cases hok : (f.filename != ""
                  && allowed_file f.filename ALLOWED_AUDIO_EXTENSIONS) with
              | true => simp [hurl, hgf, hok] at h
              | false =>
                  simp only [hurl, hgf, hok, Bool.false_eq_true, if_false,
                    Except.ok.injEq, Prod.mk.injEq] at h
                  exact ⟨h.2.symm, by simp [savedAudioContent, hct, hurl, hgf, hok]⟩
          | none =>
              simp only [hurl, hgf, Except.ok.injEq, Prod.mk.injEq] at h
              exact ⟨h.2.symm, by simp [savedAudioContent, hct, hurl, hgf]⟩

theorem save_audio_ok_some_shape (o : Oracles) (req : Req) (fs : FS) (ap : String)
    (fs' : FS) (h : save_audio_from_request o req fs = Except.ok (some ap, fs')) :
    ap = "/tmp/input_audio.mp3"
    ∧ ∃ c, savedAudioContent o req = some c
        ∧ fs' = FS.write fs "/tmp/input_audio.mp3" c := by
  unfold save_audio_from_request at h
  cases hct : ctStartsWith req "audio/" with
  | true =>
      simp only [hct, if_true, Except.ok.injEq, Prod.mk.injEq,
        Option.some.injEq] at h
      exact ⟨h.1.symm, req.body, by simp [savedAudioContent, hct], h.2.symm⟩
  | false =>
      simp only [hct, Bool.false_eq_true, if_false] at h
      cases hurl : getField req "audio_url" with
      | some url =>
          cases hdl : o.download url with
          | ok content =>
              simp only [hurl, hdl, Except.ok.injEq, Prod.mk.injEq,
                Option.some.injEq] at h
              exact ⟨h.1.symm, content,
                by simp [savedAudioContent, hct, hurl, hdl], h.2.symm⟩
          | error m => simp [hurl, hdl] at h
      | none =>
          cases hgf : getFile req "audio_file" with
          | some f =>
              cases hok : (f.filename != ""
                  && allowed_file f.filename ALLOWED_AUDIO_EXTENSIONS) with
              | true =>
                  simp only [hurl, hgf, hok, if_true, Except.ok.injEq,
                    Prod.mk.injEq, Option.some.injEq] at h
                  exact ⟨h.1.symm, f.content,
                    by simp [savedAudioContent, hct, hurl, hgf, hok], h.2.symm⟩
              | false => simp [hurl, hgf, hok] at h
          | none => simp [hurl, hgf] at h

theorem subtitle_step_skip (o : Oracles) (ti d : String) (tg : List String)
    (vp : String) (fs : FS) (evs : List Event) :
    subtitle_step o "" ti d tg vp fs evs = finish_pipeline o ti d tg vp fs evs := by
  simp [subtitle_step]

theorem watermark_step_skip (o : Oracles) (st ti d : String) (tg : List String)
    (vp : String) (fs : FS) (evs : List Event) :
    watermark_step o "" st ti d tg vp fs evs
      = subtitle_step o st ti d tg vp fs evs := by
  simp [watermark_step]

theorem ducking_step_skip_all (o : Oracles) (ti d : String) (tg : List String)
    (vp : String) (fs : FS) (evs : List Event) :
    ducking_step o "" "" ti d tg vp none fs evs
      = finish_pipeline o ti d tg vp fs evs := by
  unfold ducking_step
  rw [watermark_step_skip, subtitle_step_skip]

theorem finish_events_shape (o : Oracles) (ti d : String) (tg : List String)
    (vp : String) (fs : FS) (evs : List Event) :
    ∀ e ∈ (finish_pipeline o ti d tg vp fs evs).events,
      e ∈ evs
      ∨ ∃ c, FS.lookup fs vp = some c
          ∧ e = Event.upload "/tmp/final_output.mp4" c ti d tg uploadDefaultPrivacy := by
  intro e he
  unfold finish_pipeline at he
  cases hl : FS.lookup fs vp with
  | none =>
      simp [hl] at he
      exact Or.inl he
  | some c =>
      cases hu : o.upload "/tmp/final_output.mp4" c ti d tg uploadDefaultPrivacy with
      | error m =>
          simp [hl, hu] at he
          rcases he with he | he
          · exact Or.inl he
          · exact Or.inr ⟨c, rfl, he⟩
      | ok v =>
          simp [hl, hu] at he
          rcases he with he | he
          · exact Or.inl he
          · exact Or.inr ⟨c, rfl, he⟩

theorem process_eq_cases (o : Oracles) (req : Req) (fs0 : FS) :
    (∃ m, process_youtube_short o req fs0
        = { resp := Resp.badRequest m, fs := fs0, events := [] })
    ∨ (∃ m fsx, process_youtube_short o req fs0
        = { resp := Resp.serverError m, fs := fsx, events := [] })
    ∨ (∃ vp fs1 ap fs2,
        save_video_from_request o req fs0 = Except.ok (vp, fs1)
        ∧ save_audio_from_request o req fs1 = Except.ok (ap, fs2)
        ∧ process_youtube_short o req fs0
            = ducking_step o (getFieldD req "username" "")
                (getFieldD req "subtitle_text" "")
                (getFieldD req "title" "YouTube Short")
                (getFieldD req "description" "")
                (parseTags (getFieldD req "tags" "")) vp ap fs2 []) := by
  unfold process_youtube_short
  cases hsv : save_video_from_request o req fs0 with
  | error e' =>
      cases e' with
      | valueError m => exact Or.inl ⟨m, rfl⟩
      | exn m => exact Or.inr (Or.inl ⟨m, fs0, rfl⟩)
  | ok pfs =>
      obtain ⟨vp, fs1⟩ := pfs
      dsimp only
      cases hsa : save_audio_from_request o req fs1 with
      | error e' =>
          cases e' with
          | valueError m => exact Or.inr (Or.inl ⟨m, fs1, rfl⟩)
          | exn m => exact Or.inr (Or.inl ⟨m, fs1, rfl⟩)
      | ok afs =>
          obtain ⟨ap, fs2⟩ := afs
          refine Or.inr (Or.inr ⟨vp, fs1, ap, fs2, ?_, ?_, ?_⟩) <;>
            first
            | exact hsv
            | exact hsa
            | rfl

theorem stage_filter_finish (o : Oracles) (ti d : String) (tg : List String)
    (vp : String) (fs : FS) (evs : List Event) :
    ((finish_pipeline o ti d tg vp fs evs).events).filterMap Event.stageTag
      = evs.filterMap Event.stageTag := by
  unfold finish_pipeline
  cases hl : FS.lookup fs vp with
  | none => rfl
  | some c =>
      cases hu : o.upload "/tmp/final_output.mp4" c ti d tg uploadDefaultPrivacy with
      | error m => simp [hu, List.filterMap_append, Event.stageTag]
      | ok v => simp [hu, List.filterMap_append, Event.stageTag]

theorem stage_filter_subtitle (o : Oracles) (st ti d : String) (tg : List String)
    (vp : String) (fs : FS) (evs : List Event) :
    ∃ t, ((subtitle_step o st ti d tg vp fs evs).events).filterMap Event.stageTag
        = evs.filterMap Event.stageTag ++ t ∧ t.Sublist [2] := by
  unfold subtitle_step
  cases hs : (st != "") with
  | false =>
      simp only [Bool.false_eq_true, if_false]
      exact ⟨[], by simp [stage_filter_finish], List.nil_sublist _⟩
  | true =>
      simp only [if_true]
      cases hsub : o.subtitle vp st with
      | error m =>
          refine ⟨[2], ?_, List.Sublist.refl _⟩
          simp [hsub, List.filterMap_append, Event.stageTag]
      | ok c =>
          refine ⟨[2], ?_, List.Sublist.refl _⟩
          simp only [hsub]
          rw [stage_filter_finish]
          simp [List.filterMap_append, Event.stageTag]

theorem stage_filter_watermark (o : Oracles) (un st ti d : String)
    (tg : List String) (vp : String) (fs : FS) (evs : List Event) :
    ∃ t, ((watermark_step o un st ti d tg vp fs evs).events).filterMap Event.stageTag
        = evs.filterMap Event.stageTag ++ t ∧ t.Sublist [1, 2] := by
  unfold watermark_step
  cases hs : (un != "") with
  | false =>
      simp only [Bool.false_eq_true, if_false]
      obtain ⟨t, ht, hsl⟩ := stage_filter_subtitle o st ti d tg vp fs evs
      exact ⟨t, ht, hsl.cons 1⟩
  | true =>
      simp only [if_true]
      cases hw : o.watermark vp un with
      | error m =>
          refine ⟨[1], ?_, by decide⟩
          simp [hw, List.filterMap_append, Event.stageTag]
      | ok c =>
          obtain ⟨t, ht, hsl⟩ := stage_filter_subtitle o st ti d tg
            "/tmp/watermark_video.mp4" (fs.write "/tmp/watermark_video.mp4" c)
            (evs ++ [Event.watermark vp "/tmp/watermark_video.mp4" un])
          refine ⟨1 :: t, ?_, hsl.cons₂ 1⟩
          simp only [hw]
          rw [ht]
          simp [List.filterMap_append, Event.stageTag]

theorem stage_filter_ducking (o : Oracles) (un st ti d : String)
    (tg : List String) (vp : String) (ap : Option String) (fs : FS)
    (evs : List Event) :
    ∃ t, ((ducking_step o un st ti d tg vp ap fs evs).events).filterMap Event.stageTag
        = evs.filterMap Event.stageTag ++ t ∧ t.Sublist [0, 1, 2] := by
  unfold ducking_step
  cases ap with
  | none =>
      obtain ⟨t, ht, hsl⟩ := stage_filter_watermark o un st ti d tg vp fs evs
      exact ⟨t, ht, hsl.cons 0⟩
  | some a =>
      cases hd : o.duck vp a with
      | error m =>
          refine ⟨[0], ?_, by decide⟩
          simp [hd, List.filterMap_append, Event.stageTag]
      | ok c =>
          obtain ⟨t, ht, hsl⟩ := stage_filter_watermark o un st ti d tg
            "/tmp/ducked_video.mp4" (fs.write "/tmp/ducked_video.mp4" c)
            (evs ++ [Event.ducking vp a "/tmp/ducked_video.mp4"])
          refine ⟨0 :: t, ?_, hsl.cons₂ 0⟩
          simp only [hd]
          rw [ht]
          simp [List.filterMap_append, Event.stageTag]

/-- C5: when the request supplies no username and no subtitle text, the
handler invokes neither the watermark nor the subtitle stage, and the
content it uploads is exactly the ducking-stage output (the value the
ducking oracle returned) or, when no audio was acquired, the raw acquired
input video content, unchanged; moreover, on every request whatsoever the
transcode stages that do run appear in the trace in the fixed order
ducking, then watermark, then subtitle, each at most once. -/
theorem no_identity_no_caption_skips_stages :
    (∀ (o : Oracles) (req : Req) (fs0 : FS),
      getFieldD req "username" "" = "" →
      getFieldD req "subtitle_text" "" = "" →
      (∀ e ∈ (process_youtube_short o req fs0).events,
          e.isWatermark = false ∧ e.isSubtitle = false)
      ∧ (∀ p c ti d tg pr,
          Event.upload p c ti d tg pr ∈ (process_youtube_short o req fs0).events →
          match savedAudioContent o req with
          | some _ =>
              o.duck "/tmp/input_video.mp4" "/tmp/input_audio.mp3" = Except.ok c
          | none => savedVideoContent o req = some c))
    ∧ (∀ (o : Oracles) (req : Req) (fs0 : FS),
        (((process_youtube_short o req fs0).events).filterMap Event.stageTag).Sublist
          [0, 1, 2]) := by
  constructor
  · intro o req fs0 hu hs
    rcases process_eq_cases o req fs0 with ⟨m, hP⟩ | ⟨m, fsx, hP⟩ |
      ⟨vp, fs1, ap, fs2, hsv, hsa, hP⟩
    · rw [hP]
      exact ⟨fun e he => by simp at he, fun p c ti d tg pr hmem => by simp at hmem⟩
    · rw [hP]
      exact ⟨fun e he => by simp at he, fun p c ti d tg pr hmem => by simp at hmem⟩
    · rw [hu, hs] at hP
      rw [hP]
      obtain ⟨hvp, c1, hc1, hfs1⟩ := save_video_ok_shape o req fs0 vp fs1 hsv
      cases ap with
      | none =>
          obtain ⟨hfs2, hAud⟩ := save_audio_ok_none_shape o req fs1 fs2 hsa
          rw [ducking_step_skip_all]
          constructor
          · intro e he
            rcases finish_events_shape o _ _ _ vp fs2 [] e he with hm | ⟨c0, hlk, hup⟩
            · simp at hm
            · subst hup; exact ⟨rfl, rfl⟩
          · intro p c ti' d' tg' pr hmem
            rcases finish_events_shape o _ _ _ vp fs2 [] _ hmem with hm | ⟨c0, hlk, hup⟩
            · simp at hm
            · rw [hAud]
              show savedVideoContent o req = some c
              simp only [Event.upload.injEq] at hup
              obtain ⟨_, hc, _⟩ := hup
              subst hfs2
              subst hfs1
              subst hvp
              rw [lookup_write_self] at hlk
              rw [hc1, Option.some.inj hlk, ← hc]
      | some a =>
          obtain ⟨ha, c2, hc2, hfs2⟩ := save_audio_ok_some_shape o req fs1 a fs2 hsa
          unfold ducking_step
          cases hd : o.duck vp a with
          | error m =>
              constructor
              · intro e he
                simp [hd] at he
                subst he
                exact ⟨rfl, rfl⟩
              · intro p c ti' d' tg' pr hmem
                simp [hd] at hmem
          | ok cd =>
              simp only [hd]
              rw [watermark_step_skip, subtitle_step_skip]
              constructor
              · intro e he
                rcases finish_events_shape o _ _ _ "/tmp/ducked_video.mp4"
                    (fs2.write "/tmp/ducked_video.mp4" cd)
                    ([] ++ [Event.ducking vp a "/tmp/ducked_video.mp4"]) e he with
                  hm | ⟨c0, hlk, hup⟩
                · simp at hm
                  subst hm
                  exact ⟨rfl, rfl⟩
                · subst hup; exact ⟨rfl, rfl⟩
              · intro p c ti' d' tg' pr hmem
                rcases finish_events_shape o _ _ _ "/tmp/ducked_video.mp4"
                    (fs2.write "/tmp/ducked_video.mp4" cd)
                    ([] ++ [Event.ducking vp a "/tmp/ducked_video.mp4"]) _ hmem with
                  hm | ⟨c0, hlk, hup⟩
                · simp at hm
                · rw [hc2]
                  show o.duck "/tmp/input_video.mp4" "/tmp/input_audio.mp3"
                      = Except.ok c
                  simp only [Event.upload.injEq] at hup
                  obtain ⟨_, hc, _⟩ := hup
                  rw [lookup_write_self] at hlk
                  subst hvp
                  subst ha
                  rw [hc, ← Option.some.inj hlk]
                  exact hd
  · intro o req fs0
    rcases process_eq_cases o req fs0 with ⟨m, hP⟩ | ⟨m, fsx, hP⟩ |
      ⟨vp, fs1, ap, fs2, hsv, hsa, hP⟩
    · rw [hP]; exact List.nil_sublist _
    · rw [hP]; exact List.nil_sublist _
    · rw [hP]
      obtain ⟨t, ht, hsl⟩ := stage_filter_ducking o _ _ _ _ _ vp ap fs2 []
      rw [ht]
      simpa using hsl

/-- Witness for C5 at a concrete input: the raw-body request with no
username and no subtitle uploads exactly the acquired input content. -/
theorem no_identity_no_caption_skips_stages_witness :
    savedVideoContent happyOracles rawVideoReq = some "RAWVIDEO" := by
  have h := (no_identity_no_caption_skips_stages.1 happyOracles rawVideoReq []
      rfl rfl).2
    "/tmp/final_output.mp4" "RAWVIDEO" "YouTube Short" "" [] "public" (by decide)
  rw [show savedAudioContent happyOracles rawVideoReq = none from rfl] at h
  exact h

end ShortsMaker
